import Mathlib

/-!
Verification development for the `ctr run` command of containerd
(`cmd/ctr/commands/run/run.go`): the mount-specification parser
(`parseMountFlag`) and the run lifecycle orchestrator (`Command.Action`).

The mount parser is embedded at the character level.  The record
tokenization performed by Go's `encoding/csv` `Reader.Read` (default
configuration: comma separator, double-quote quoting, `LazyQuotes=false`,
`TrimLeadingSpace=false`) is modelled by `csvFields`; the per-field
`key=val` handling of `parseMountFlag` is modelled by `applyField` and
`mountFromFields`.
-/

namespace CtrRun

/-- The mount record built by the parser (the fields of `specs.Mount`
that `parseMountFlag` assigns; the Go zero value has empty strings and a
nil options slice). -/
structure Mount where
  type : String
  source : String
  destination : String
  options : List String
deriving DecidableEq, Repr

/-- The Go zero value `specs.Mount{}` that `parseMountFlag` starts from. -/
def emptyMount : Mount := { type := "", source := "", destination := "", options := [] }

/-- Errors of the csv record reader (`io.EOF`, bare-quote and
quote errors of `encoding/csv`). -/
inductive CsvError
  | eof
  | bareQuote
  | quote
deriving DecidableEq, Repr

/-- Errors produced by `parseMountFlag`: a csv read error, the
"invalid mount specification: expected key=val" error, or the
"mount option %q not supported" error. -/
inductive MountErr
  | csv (e : CsvError)
  | malformed
  | unsupported (key : String)
deriving DecidableEq, Repr

instance {ε α : Type} [DecidableEq ε] [DecidableEq α] : DecidableEq (Except ε α) := fun x y =>
  match x, y with
  | .ok a, .ok b =>
    if h : a = b then .isTrue (by rw [h])
    else .isFalse (by intro hh; injection hh; exact h (by assumption))
  | .error a, .error b =>
    if h : a = b then .isTrue (by rw [h])
    else .isFalse (by intro hh; injection hh; exact h (by assumption))
  | .ok _, .error _ => .isFalse (by intro hh; exact Except.noConfusion hh)
  | .error _, .ok _ => .isFalse (by intro hh; exact Except.noConfusion hh)

/-- Split a character list on every occurrence of `sep`, as Go's
`strings.Split` does for a one-character separator (the empty list maps
to `[[]]`, matching `strings.Split("", sep) = [""]`). -/
def splitOnChar (sep : Char) : List Char → List (List Char)
  | [] => [[]]
  | c :: rest =>
    if c = sep then [] :: splitOnChar sep rest
    else
      match splitOnChar sep rest with
      | [] => [[c]]
      | s :: ss => (c :: s) :: ss

/-- Normalize every "\r\n" pair to "\n", as `encoding/csv`'s `readLine`
does for each line it reads (every "\r\n" in the input sits at a line
end, so the normalization applies to all of them). -/
def normCRLF : List Char → List Char
  | [] => []
  | [c] => [c]
  | c :: c2 :: rest =>
    if c = '\r' ∧ c2 = '\n' then '\n' :: normCRLF rest
    else c :: normCRLF (c2 :: rest)

/-- Drop leading empty lines, as `Reader.Read` skips records whose line
consists only of the terminator. -/
def skipNL : List Char → List Char
  | [] => []
  | c :: rest => if c = '\n' then skipNL rest else c :: rest

/-- Tokenization modes of the csv record scanner: at the start of a
field, inside an unquoted field, inside a quoted field. -/
inductive CMode
  | start
  | unq
  | qtd
deriving DecidableEq, Repr

/-- One-record csv scanner: `field` is the field accumulated so far,
`acc` the completed fields.  Mirrors the `parseField` loop of
`encoding/csv` `Reader.readRecord` with the default configuration:
a field starting with `"` is quoted (`""` escapes a quote; a closing
quote must be followed by the separator or the end of the line/input),
a quote inside an unquoted field is an error, and the record ends at
the first unquoted newline or at the end of the input. -/
def csvAux (m : CMode) (field : List Char) (acc : List (List Char)) :
    List Char → Except CsvError (List (List Char))
  | [] =>
    match m with
    | .start => .ok (acc ++ [[]])
    | .unq => .ok (acc ++ [field])
    | .qtd => .error .quote
  | c :: rest =>
    match m with
    | .start =>
      if c = '\"' then csvAux .qtd [] acc rest
      else if c = ',' then csvAux .start [] (acc ++ [[]]) rest
      else if c = '\n' then .ok (acc ++ [[]])
      else csvAux .unq [c] acc rest
    | .unq =>
      if c = ',' then csvAux .start [] (acc ++ [field]) rest
      else if c = '\n' then .ok (acc ++ [field])
      else if c = '\"' then .error .bareQuote
      else csvAux .unq (field ++ [c]) acc rest
    | .qtd =>
      if c = '\"' then
        match rest with
        | [] => .ok (acc ++ [field])
        | c2 :: rest2 =>
          if c2 = '\"' then csvAux .qtd (field ++ ['\"']) acc rest2
          else if c2 = ',' then csvAux .start [] (acc ++ [field]) rest2
          else if c2 = '\n' then .ok (acc ++ [field])
          else .error .quote
      else csvAux .qtd (field ++ [c]) acc rest

/-- The single `r.Read()` call of `parseMountFlag`: normalize line
endings, skip leading empty lines, return `io.EOF` on empty input, and
scan one record. -/
def csvFields (cs : List Char) : Except CsvError (List (List Char)) :=
  let cs2 := skipNL (normCRLF cs)
  if cs2 = [] then .error .eof else csvAux .start [] [] cs2

/-- One iteration of the field loop of `parseMountFlag`: split the
field on `=` (Go `strings.Split(field, "=")`), require exactly two
parts, then dispatch on the key exactly as the Go `switch` does (string
equality is compared on the underlying character lists). -/
def applyField (mount : Mount) (field : List Char) : Except MountErr Mount :=
  match splitOnChar '=' field with
  | [k, v] =>
    if k = "type".data then .ok { mount with type := String.mk v }
    else if k = "source".data ∨ k = "src".data then .ok { mount with source := String.mk v }
    else if k = "destination".data ∨ k = "dst".data then .ok { mount with destination := String.mk v }
    else if k = "options".data then .ok { mount with options := (splitOnChar ':' v).map String.mk }
    else .error (.unsupported (String.mk k))
  | _ => .error .malformed

/-- The field loop of `parseMountFlag`, left to right over the record's
fields (so a later occurrence of a key overwrites an earlier one). -/
def mountFromFields : Mount → List (List Char) → Except MountErr Mount
  | mount, [] => .ok mount
  | mount, f :: rest =>
    match applyField mount f with
    | .ok m2 => mountFromFields m2 rest
    | .error e => .error e

/-- `parseMountFlag` of `run.go`: read one csv record from the mount
string and fold the `key=val` fields into a `Mount` starting from the
zero value. -/
def parseMountFlag (m : String) : Except MountErr Mount :=
  match csvFields m.data with
  | .error e => .error (.csv e)
  | .ok fields => mountFromFields emptyMount fields

/-!
The run lifecycle orchestrator: `Command.Action` of `run.go`.

The external collaborators (client creation, `NewContainer`,
`console.SetRaw`, `tasks.NewTask`, `task.Wait`, `WritePidFile`,
`task.Start`, the exit-status decode `status.Result()` and the explicit
`task.Delete`) are modelled by an oracle `Env` giving each fallible
call's result.  The orchestrator is embedded as a function from the
relevant flags and the oracle to the sequence of calls it performs (the
trace, deferred calls included, in execution order) and the `error`
value `Action` returns (`none` is a nil error, i.e. success).
-/

/-- Calls the orchestrator can make, in source order of `Action`:
client creation and its deferred `cancel`, `NewContainer` and the
deferred `container.Delete`, the deferred `con.Reset` and `con.SetRaw`,
`tasks.NewTask`, `task.Delete` (the deferred one and the explicit one
emit the same event), `task.Wait`, `WritePidFile`, `task.Start`,
`HandleConsoleResize`, `ForwardAllSignals` and the deferred
`StopCatch`. -/
inductive Event
  | newClient
  | cancelClient
  | createInstance
  | deleteInstance
  | consoleReset
  | consoleSetRaw
  | createTask
  | taskDelete
  | taskWait
  | writePid
  | taskStart
  | resizeHandle
  | forwardSignals
  | stopCatch
deriving DecidableEq, Repr

/-- The flags and positional arguments `Action` reads for control flow:
`IsSet("config")`, the positional args, `Bool("tty")`, `Bool("detach")`,
`Bool("rm")` and `IsSet("pid-file")`. -/
structure Flags where
  config : Bool
  args : List String
  tty : Bool
  detach : Bool
  rm : Bool
  pidFileSet : Bool
deriving DecidableEq, Repr

/-- Results of the external calls of one run: `none` means the call
returns a nil error, `some e` the error value `e`.  `statusResult` is
the `(code, err)` decode of the exit status received on the wait
channel, and `deleteTaskErr` the result of the explicit final
`task.Delete` (the errors of deferred calls are discarded by `defer`
and so are not modelled). -/
structure Env where
  newClientErr : Option String
  newContainerErr : Option String
  setRawErr : Option String
  newTaskErr : Option String
  waitErr : Option String
  writePidErr : Option String
  startErr : Option String
  statusResult : Except String Nat
  deleteTaskErr : Option String
  resizeErr : Option String
deriving DecidableEq, Repr

/-- The error value returned by `Action`: `msg` is an ordinary error
(`errors.New` or a propagated collaborator error), `exit` is
`cli.NewExitError(message, code)` carrying a diagnostic message and a
numeric exit code. -/
inductive RunErr
  | msg (s : String)
  | exit (message : String) (code : Nat)
deriving DecidableEq, Repr

/-- The positional-argument validation at the top of `Action`
(`Args().First()` is the first argument or "", `Args().Get(1)` the
second or "", `NArg()` the count). -/
def validate (f : Flags) : Option RunErr :=
  if f.config then
    if f.args.length > 1 then
      some (.msg "with spec config file, only container id should be provided")
    else if f.args.headD "" = "" then some (.msg "container id must be provided")
    else none
  else
    if f.args.headD "" = "" then some (.msg "image ref must be provided")
    else if f.args.getD 1 "" = "" then some (.msg "container id must be provided")
    else none

/-- Tail of `Action` once attached and started: resize relay when tty
(its error only logged), otherwise signal forwarding with a deferred
`StopCatch`; then the blocking receive and `status.Result()` decode,
the explicit `task.Delete`, and the exit-code mapping.  `tr` is the
trace so far and `ds` the pending deferred calls, most recent first. -/
def stage3 (f : Flags) (env : Env) (tr ds : List Event) : List Event × Option RunErr :=
  let tr := if f.tty then tr ++ [.resizeHandle] else tr ++ [.forwardSignals]
  let ds := if f.tty then ds else .stopCatch :: ds
  match env.statusResult with
  | .error e => (tr ++ ds, some (.msg e))
  | .ok code =>
    let tr := tr ++ [.taskDelete]
    match env.deleteTaskErr with
    | some e => (tr ++ ds, some (.msg e))
    | none => (tr ++ ds, if code ≠ 0 then some (.exit "" code) else none)

/-- `task.Start` and the detach decision of `Action`. -/
def stage2c (f : Flags) (env : Env) (tr ds : List Event) : List Event × Option RunErr :=
  match env.startErr with
  | some e => (tr ++ [.taskStart] ++ ds, some (.msg e))
  | none =>
    if f.detach then (tr ++ [.taskStart] ++ ds, none)
    else stage3 f env (tr ++ [.taskStart]) ds

/-- The optional `WritePidFile` step of `Action` (fatal on failure). -/
def stage2b (f : Flags) (env : Env) (tr ds : List Event) : List Event × Option RunErr :=
  if f.pidFileSet then
    match env.writePidErr with
    | some e => (tr ++ [.writePid] ++ ds, some (.msg e))
    | none => stage2c f env (tr ++ [.writePid]) ds
  else stage2c f env tr ds

/-- `tasks.NewTask` and, when not detaching, the deferred `task.Delete`
registration followed by `task.Wait`. -/
def stage2 (f : Flags) (env : Env) (tr ds : List Event) : List Event × Option RunErr :=
  match env.newTaskErr with
  | some e => (tr ++ [.createTask] ++ ds, some (.msg e))
  | none =>
    let tr := tr ++ [.createTask]
    if f.detach then stage2b f env tr ds
    else
      let ds := .taskDelete :: ds
      match env.waitErr with
      | some e => (tr ++ [.taskWait] ++ ds, some (.msg e))
      | none => stage2b f env (tr ++ [.taskWait]) ds

/-- `Command.Action` of `run.go`: validation, client creation (with
deferred `cancel`), `NewContainer`, the conditional deferred
`container.Delete` (`rm` set and not detaching), the console block
(deferred `con.Reset`, then `con.SetRaw`), and the later stages.  The
first component is the trace of calls in execution order (deferred
calls run in reverse registration order at return); the second is the
returned error. -/
def commandAction (f : Flags) (env : Env) : List Event × Option RunErr :=
  match validate f with
  | some e => ([], some e)
  | none =>
    match env.newClientErr with
    | some e => ([.newClient], some (.msg e))
    | none =>
      let tr := [Event.newClient]
      let ds := [Event.cancelClient]
      match env.newContainerErr with
      | some e => (tr ++ [.createInstance] ++ ds, some (.msg e))
      | none =>
        let tr := tr ++ [.createInstance]
        let ds := if f.rm && !f.detach then .deleteInstance :: ds else ds
        if f.tty then
          let ds := .consoleReset :: ds
          match env.setRawErr with
          | some e => (tr ++ [.consoleSetRaw] ++ ds, some (.msg e))
          | none => stage2 f env (tr ++ [.consoleSetRaw]) ds
        else stage2 f env tr ds

/-- A concrete all-success attached environment used in scratch checks. -/
def envOkDetachedCheck : Env :=
  { newClientErr := none, newContainerErr := none, setRawErr := none,
    newTaskErr := none, waitErr := none, writePidErr := none,
    startErr := none, statusResult := .ok 0, deleteTaskErr := none,
    resizeErr := none }

/-- Prepend `f` to the first field of a nonempty field list. -/
def consHead (f : List Char) : List (List Char) → List (List Char)
  | [] => [f]
  | s :: ss => (f ++ s) :: ss

/-! Key=value tokens of the mount mini-language, and what `applyField`
does on each of them. -/

/-- A `type=<v>` token. -/
def tokType (v : List Char) : List Char := "type".data ++ '=' :: v

/-- A `source=<v>` token. -/
def tokSrc (v : List Char) : List Char := "source".data ++ '=' :: v

/-- A `destination=<v>` token. -/
def tokDst (v : List Char) : List Char := "destination".data ++ '=' :: v

/-- An `options=<o1>:<o2>` token. -/
def tokOpts (o1 o2 : List Char) : List Char := "options".data ++ '=' :: (o1 ++ ':' :: o2)

/-- A value usable inside one key=value token of a mount string:
no separator, quote, newline or carriage-return characters. -/
def TokenOK (v : List Char) : Prop :=
  '=' ∉ v ∧ ',' ∉ v ∧ '\"' ∉ v ∧ '\n' ∉ v ∧ '\r' ∉ v

instance (v : List Char) : Decidable (TokenOK v) := by unfold TokenOK; infer_instance

/-- Comma-join a list of fields, as the mount string concatenates its
tokens. -/
def joinComma : List (List Char) → List Char
  | [] => []
  | [t] => t
  | t :: rest => t ++ ',' :: joinComma rest

/-- A csv field that the record scanner passes through unchanged:
no comma, no quote, no newline, no carriage return, nonempty. -/
def FieldOK (t : List Char) : Prop :=
  ',' ∉ t ∧ (∀ c ∈ t, c ≠ '\"' ∧ c ≠ '\n' ∧ c ≠ '\r') ∧ t ≠ []

instance (t : List Char) : Decidable (FieldOK t) := by unfold FieldOK; infer_instance

/-- The pure effect of a successful `applyField`: apply the update the
field denotes, keep the mount unchanged on an error. -/
def applyOk (m : Mount) (t : List Char) : Mount :=
  match applyField m t with
  | .ok m2 => m2
  | .error _ => m

/-- Decide whether some occurrence of `a` strictly precedes some
occurrence of `b` in the trace. -/
def occursBefore (a b : Event) : List Event → Bool
  | [] => false
  | x :: rest => (decide (x = a) && decide (b ∈ rest)) || occursBefore a b rest

example :
    parseMountFlag "type=bind,source=/a,destination=/b,options=rbind:rw" =
      .ok { type := "bind", source := "/a", destination := "/b", options := ["rbind", "rw"] } := by
  decide

example : parseMountFlag "typeT" = .error .malformed := by decide

example : parseMountFlag "options=a=b" = .error .malformed := by decide

example : parseMountFlag "foo=bar" = .error (.unsupported "foo") := by decide

example : parseMountFlag "type=a,type=b" = .ok { emptyMount with type := "b" } := by decide

example : parseMountFlag "" = .error (.csv .eof) := by decide

example :
    commandAction
      { config := false, args := ["img", "c1"], tty := false, detach := false,
        rm := false, pidFileSet := false } envOkDetachedCheck =
    ([.newClient, .createInstance, .createTask, .taskWait, .taskStart,
      .forwardSignals, .taskDelete, .stopCatch, .taskDelete, .cancelClient], none) := by
  decide

example :
    commandAction
      { config := false, args := ["img", "c1"], tty := false, detach := true,
        rm := true, pidFileSet := false } envOkDetachedCheck =
    ([.newClient, .createInstance, .createTask, .taskStart, .cancelClient], none) := by
  decide

example :
    commandAction
      { config := false, args := ["img", "c1"], tty := true, detach := false,
        rm := true, pidFileSet := false }
      { envOkDetachedCheck with setRawErr := some "raw" } =
    ([.newClient, .createInstance, .consoleSetRaw, .consoleReset, .deleteInstance,
      .cancelClient], some (.msg "raw")) := by
  decide

/-! Supporting lemmas about the csv tokenization on quote- and
newline-free inputs. -/

theorem splitOnChar_cons_of_ne (sep : Char) (cs : List Char) :
    ∃ s ss, splitOnChar sep cs = s :: ss := by
  cases cs with
  | nil => exact ⟨[], [], rfl⟩
  | cons c rest =>
    by_cases h : c = sep
    · exact ⟨[], splitOnChar sep rest, by simp [splitOnChar, h]⟩
    · cases hs : splitOnChar sep rest with
      | nil => exact ⟨[c], [], by simp [splitOnChar, h, hs]⟩
      | cons s ss => exact ⟨c :: s, ss, by simp [splitOnChar, h, hs]⟩

theorem splitOnChar_not_mem (sep : Char) (cs : List Char) (h : sep ∉ cs) :
    splitOnChar sep cs = [cs] := by
  induction cs with
  | nil => rfl
  | cons c rest ih =>
    have hc : ¬ c = sep := fun hc => h (hc ▸ List.mem_cons_self c rest)
    have hr : sep ∉ rest := fun hm => h (List.mem_cons_of_mem c hm)
    simp [splitOnChar, hc, ih hr]

theorem splitOnChar_append (sep : Char) (t : List Char) (rest : List Char) (h : sep ∉ t) :
    splitOnChar sep (t ++ sep :: rest) = t :: splitOnChar sep rest := by
  induction t with
  | nil => simp [splitOnChar]
  | cons a t2 ih =>
    have ha : ¬ a = sep := fun hc => h (hc ▸ List.mem_cons_self a t2)
    have ht : sep ∉ t2 := fun hm => h (List.mem_cons_of_mem a hm)
    simp only [List.cons_append, splitOnChar, ha, if_false, List.append_eq, ih ht]

theorem normCRLF_id (cs : List Char) (h : ∀ c ∈ cs, c ≠ '\r') : normCRLF cs = cs := by
  induction cs with
  | nil => rfl
  | cons c rest ih =>
    cases rest with
    | nil => rfl
    | cons c2 rest2 =>
      have hc : ¬ (c = '\r' ∧ c2 = '\n') := fun hh => (h c (List.mem_cons_self _ _)) hh.1
      have := ih (fun x hx => h x (List.mem_cons_of_mem c hx))
      simp [normCRLF, hc, this]

theorem skipNL_cons_ne (c : Char) (rest : List Char) (h : c ≠ '\n') :
    skipNL (c :: rest) = c :: rest := by
  simp [skipNL, h]

theorem csvAux_plain (cs : List Char) (h : ∀ c ∈ cs, c ≠ '\"' ∧ c ≠ '\n') :
    (∀ acc, csvAux .start [] acc cs = .ok (acc ++ splitOnChar ',' cs)) ∧
    (∀ acc field, csvAux .unq field acc cs = .ok (acc ++ consHead field (splitOnChar ',' cs))) := by
  induction cs with
  | nil =>
    constructor
    · intro acc; rfl
    · intro acc field; simp [csvAux, splitOnChar, consHead]
  | cons c rest ih =>
    have hc := h c (List.mem_cons_self _ _)
    have hrest := ih (fun x hx => h x (List.mem_cons_of_mem c hx))
    by_cases hsep : c = ','
    · subst hsep
      constructor
      · intro acc
        have : csvAux .start [] acc (',' :: rest) = csvAux .start [] (acc ++ [[]]) rest := by
          simp [csvAux, hc.1]
        rw [this, hrest.1]
        simp [splitOnChar]
      · intro acc field
        have : csvAux .unq field acc (',' :: rest) = csvAux .start [] (acc ++ [field]) rest := by
          simp [csvAux, hc.1]
        rw [this, hrest.1]
        simp [splitOnChar, consHead]
    · obtain ⟨s, ss, hs⟩ := splitOnChar_cons_of_ne ',' rest
      constructor
      · intro acc
        have h1 : csvAux .start [] acc (c :: rest) = csvAux .unq [c] acc rest := by
          simp [csvAux, hc.1, hc.2, hsep]
        rw [h1, hrest.2]
        simp [splitOnChar, hsep, hs, consHead]
      · intro acc field
        have h1 : csvAux .unq field acc (c :: rest) = csvAux .unq (field ++ [c]) acc rest := by
          simp [csvAux, hc.1, hc.2, hsep]
        rw [h1, hrest.2]
        simp [splitOnChar, hsep, hs, consHead]

/-- On a nonempty input containing no quote, newline or carriage
return, the csv record read is exactly the comma split. -/
theorem csvFields_plain (cs : List Char) (hne : cs ≠ [])
    (h : ∀ c ∈ cs, c ≠ '\"' ∧ c ≠ '\n' ∧ c ≠ '\r') :
    csvFields cs = .ok (splitOnChar ',' cs) := by
  have hnorm : normCRLF cs = cs := normCRLF_id cs (fun c hc => (h c hc).2.2)
  have hskip : skipNL cs = cs := by
    cases cs with
    | nil => rfl
    | cons c rest => exact skipNL_cons_ne c rest (h c (List.mem_cons_self _ _)).2.1
  have := (csvAux_plain cs (fun c hc => ⟨(h c hc).1, (h c hc).2.1⟩)).1 []
  simp only [csvFields, hnorm, hskip, if_neg hne]
  simpa using this

theorem applyField_tokType (m : Mount) (v : List Char) (hv : '=' ∉ v) :
    applyField m (tokType v) = .ok { m with type := String.mk v } := by
  have h1 : splitOnChar '=' (tokType v) = ["type".data, v] := by
    rw [tokType, splitOnChar_append '=' "type".data v (by decide),
      splitOnChar_not_mem '=' v hv]
  simp [applyField, h1]

theorem applyField_tokSrc (m : Mount) (v : List Char) (hv : '=' ∉ v) :
    applyField m (tokSrc v) = .ok { m with source := String.mk v } := by
  have h1 : splitOnChar '=' (tokSrc v) = ["source".data, v] := by
    rw [tokSrc, splitOnChar_append '=' "source".data v (by decide),
      splitOnChar_not_mem '=' v hv]
  simp [applyField, h1]

theorem applyField_tokDst (m : Mount) (v : List Char) (hv : '=' ∉ v) :
    applyField m (tokDst v) = .ok { m with destination := String.mk v } := by
  have h1 : splitOnChar '=' (tokDst v) = ["destination".data, v] := by
    rw [tokDst, splitOnChar_append '=' "destination".data v (by decide),
      splitOnChar_not_mem '=' v hv]
  simp [applyField, h1]

theorem applyField_tokOpts (m : Mount) (o1 o2 : List Char)
    (h1 : '=' ∉ o1) (h2 : '=' ∉ o2) (hc1 : ':' ∉ o1) (hc2 : ':' ∉ o2) :
    applyField m (tokOpts o1 o2) = .ok { m with options := [String.mk o1, String.mk o2] } := by
  have hs : splitOnChar '=' (tokOpts o1 o2) = ["options".data, o1 ++ ':' :: o2] := by
    rw [tokOpts, splitOnChar_append '=' "options".data _ (by decide),
      splitOnChar_not_mem '=' _ (by
        intro hmem
        rcases List.mem_append.1 hmem with hm | hm
        · exact h1 hm
        · rcases List.mem_cons.1 hm with hm2 | hm2
          · exact absurd hm2 (by decide)
          · exact h2 hm2)]
  have hopts : splitOnChar ':' (o1 ++ ':' :: o2) = [o1, o2] := by
    rw [splitOnChar_append ':' o1 o2 hc1, splitOnChar_not_mem ':' o2 hc2]
  simp [applyField, hs, hopts]

/-- The field loop distributes over list append. -/
theorem mountFromFields_append (m : Mount) (xs ys : List (List Char)) :
    mountFromFields m (xs ++ ys) =
      match mountFromFields m xs with
      | .ok m2 => mountFromFields m2 ys
      | .error e => .error e := by
  induction xs generalizing m with
  | nil => simp [mountFromFields]
  | cons f rest ih =>
    simp only [List.cons_append, mountFromFields]
    cases applyField m f with
    | ok m2 => exact ih m2
    | error e => rfl

theorem splitOnChar_joinComma (l : List (List Char)) (hne : l ≠ [])
    (h : ∀ t ∈ l, ',' ∉ t) :
    splitOnChar ',' (joinComma l) = l := by
  induction l with
  | nil => exact absurd rfl hne
  | cons t rest ih =>
    cases rest with
    | nil =>
      simp only [joinComma]
      exact splitOnChar_not_mem ',' t (h t (List.mem_cons_self _ _))
    | cons t2 rest2 =>
      have : joinComma (t :: t2 :: rest2) = t ++ ',' :: joinComma (t2 :: rest2) := rfl
      rw [this, splitOnChar_append ',' t _ (h t (List.mem_cons_self _ _)),
        ih (by simp) (fun x hx => h x (List.mem_cons_of_mem t hx))]

theorem mem_joinComma (l : List (List Char)) (c : Char) (hc : c ∈ joinComma l) :
    c = ',' ∨ ∃ t ∈ l, c ∈ t := by
  induction l with
  | nil => exact absurd hc (by simp [joinComma])
  | cons t rest ih =>
    cases rest with
    | nil =>
      right; exact ⟨t, List.mem_cons_self _ _, hc⟩
    | cons t2 rest2 =>
      have : joinComma (t :: t2 :: rest2) = t ++ ',' :: joinComma (t2 :: rest2) := rfl
      rw [this] at hc
      rcases List.mem_append.1 hc with hm | hm
      · right; exact ⟨t, List.mem_cons_self _ _, hm⟩
      · rcases List.mem_cons.1 hm with hm2 | hm2
        · left; exact hm2
        · rcases ih hm2 with h1 | ⟨t3, ht3, hct⟩
          · left; exact h1
          · right; exact ⟨t3, List.mem_cons_of_mem t ht3, hct⟩

theorem joinComma_ne_nil (l : List (List Char)) (hne : l ≠ []) (h : ∀ t ∈ l, t ≠ []) :
    joinComma l ≠ [] := by
  cases l with
  | nil => exact absurd rfl hne
  | cons t rest =>
    cases rest with
    | nil => exact h t (List.mem_cons_self _ _)
    | cons t2 rest2 => simp [joinComma]

theorem not_mem_imp_ne {c x : Char} {v : List Char} (h : x ∉ v) (hc : c ∈ v) : c ≠ x :=
  fun he => h (he ▸ hc)

theorem fieldOK_key_val (k v : List Char) (hk : FieldOK k)
    (hv1 : ',' ∉ v) (hv2 : ∀ c ∈ v, c ≠ '\"' ∧ c ≠ '\n' ∧ c ≠ '\r') :
    FieldOK (k ++ '=' :: v) := by
  refine ⟨?_, ?_, by simp⟩
  · intro hmem
    rcases List.mem_append.1 hmem with hm | hm
    · exact hk.1 hm
    · rcases List.mem_cons.1 hm with hm2 | hm2
      · exact absurd hm2 (by decide)
      · exact hv1 hm2
  · intro c hc
    rcases List.mem_append.1 hc with hm | hm
    · exact hk.2.1 c hm
    · rcases List.mem_cons.1 hm with hm2 | hm2
      · subst hm2; decide
      · exact hv2 c hm2

theorem tokenOK_plain {v : List Char} (h : TokenOK v) :
    ∀ c ∈ v, c ≠ '\"' ∧ c ≠ '\n' ∧ c ≠ '\r' := fun c hc =>
  ⟨@not_mem_imp_ne c _ v h.2.2.1 hc, @not_mem_imp_ne c _ v h.2.2.2.1 hc,
   @not_mem_imp_ne c _ v h.2.2.2.2 hc⟩

theorem tokType_fieldOK {v : List Char} (h : TokenOK v) : FieldOK (tokType v) :=
  fieldOK_key_val "type".data v (by decide) h.2.1 (tokenOK_plain h)

theorem tokSrc_fieldOK {v : List Char} (h : TokenOK v) : FieldOK (tokSrc v) :=
  fieldOK_key_val "source".data v (by decide) h.2.1 (tokenOK_plain h)

theorem tokDst_fieldOK {v : List Char} (h : TokenOK v) : FieldOK (tokDst v) :=
  fieldOK_key_val "destination".data v (by decide) h.2.1 (tokenOK_plain h)

theorem tokOpts_fieldOK {o1 o2 : List Char} (h1 : TokenOK o1) (h2 : TokenOK o2) :
    FieldOK (tokOpts o1 o2) := by
  refine fieldOK_key_val "options".data _ (by decide) ?_ ?_
  · intro hmem
    rcases List.mem_append.1 hmem with hm | hm
    · exact h1.2.1 hm
    · rcases List.mem_cons.1 hm with hm2 | hm2
      · exact absurd hm2 (by decide)
      · exact h2.2.1 hm2
  · intro c hc
    rcases List.mem_append.1 hc with hm | hm
    · exact tokenOK_plain h1 c hm
    · rcases List.mem_cons.1 hm with hm2 | hm2
      · subst hm2; decide
      · exact tokenOK_plain h2 c hm2

/-- Reading a comma-join of clean fields recovers exactly those
fields. -/
theorem csvFields_joinComma (l : List (List Char)) (hne : l ≠ [])
    (h : ∀ t ∈ l, FieldOK t) :
    csvFields (joinComma l) = .ok l := by
  have hjne : joinComma l ≠ [] := joinComma_ne_nil l hne (fun t ht => (h t ht).2.2)
  have hplain : ∀ c ∈ joinComma l, c ≠ '\"' ∧ c ≠ '\n' ∧ c ≠ '\r' := by
    intro c hc
    rcases mem_joinComma l c hc with hm | ⟨t, ht, hct⟩
    · subst hm; decide
    · exact (h t ht).2.1 c hct
  rw [csvFields_plain _ hjne hplain, splitOnChar_joinComma l hne (fun t ht => (h t ht).1)]

theorem applyOk_tokType (m : Mount) {v : List Char} (hv : '=' ∉ v) :
    applyOk m (tokType v) = { m with type := String.mk v } := by
  simp [applyOk, applyField_tokType m v hv]

theorem applyOk_tokSrc (m : Mount) {v : List Char} (hv : '=' ∉ v) :
    applyOk m (tokSrc v) = { m with source := String.mk v } := by
  simp [applyOk, applyField_tokSrc m v hv]

theorem applyOk_tokDst (m : Mount) {v : List Char} (hv : '=' ∉ v) :
    applyOk m (tokDst v) = { m with destination := String.mk v } := by
  simp [applyOk, applyField_tokDst m v hv]

theorem applyOk_tokOpts (m : Mount) {o1 o2 : List Char}
    (h1 : '=' ∉ o1) (h2 : '=' ∉ o2) (hc1 : ':' ∉ o1) (hc2 : ':' ∉ o2) :
    applyOk m (tokOpts o1 o2) = { m with options := [String.mk o1, String.mk o2] } := by
  simp [applyOk, applyField_tokOpts m o1 o2 h1 h2 hc1 hc2]

theorem mountFromFields_eq_foldl (l : List (List Char))
    (h : ∀ t ∈ l, ∀ m : Mount, ∃ m2, applyField m t = .ok m2) (m : Mount) :
    mountFromFields m l = .ok (l.foldl applyOk m) := by
  induction l generalizing m with
  | nil => rfl
  | cons f rest ih =>
    obtain ⟨m2, hm2⟩ := h f (List.mem_cons_self _ _) m
    have happ : applyOk m f = m2 := by simp [applyOk, hm2]
    simp only [mountFromFields, hm2, List.foldl_cons, happ]
    exact ih (fun t ht => h t (List.mem_cons_of_mem f ht)) m2

/-! Claim theorems about the mount parser. -/

/-- C5: parsing `type=T,source=S,destination=D,options=o1:o2` (with the
values free of separator characters) yields exactly that record, and
parsing any reordering of the four key=value tokens yields the same
record. -/
theorem parseMountFlag_valid_reorder (T S D o1 o2 : List Char)
    (hT : TokenOK T) (hS : TokenOK S) (hD : TokenOK D)
    (h1 : TokenOK o1) (h2 : TokenOK o2) (hc1 : ':' ∉ o1) (hc2 : ':' ∉ o2)
    (l : List (List Char))
    (hp : l.Perm [tokType T, tokSrc S, tokDst D, tokOpts o1 o2]) :
    parseMountFlag (String.mk (joinComma l)) =
      .ok { type := String.mk T, source := String.mk S,
            destination := String.mk D, options := [String.mk o1, String.mk o2] } := by
  have eT : ∀ z : Mount, applyOk z (tokType T) = { z with type := String.mk T } :=
    fun z => applyOk_tokType z hT.1
  have eS : ∀ z : Mount, applyOk z (tokSrc S) = { z with source := String.mk S } :=
    fun z => applyOk_tokSrc z hS.1
  have eD : ∀ z : Mount, applyOk z (tokDst D) = { z with destination := String.mk D } :=
    fun z => applyOk_tokDst z hD.1
  have eO : ∀ z : Mount,
      applyOk z (tokOpts o1 o2) = { z with options := [String.mk o1, String.mk o2] } :=
    fun z => applyOk_tokOpts z h1.1 h2.1 hc1 hc2
  have hmem : ∀ t ∈ l, t ∈ [tokType T, tokSrc S, tokDst D, tokOpts o1 o2] :=
    fun t ht => hp.mem_iff.1 ht
  have hfour : ∀ t ∈ [tokType T, tokSrc S, tokDst D, tokOpts o1 o2], FieldOK t := by
    intro t ht
    simp only [List.mem_cons, List.not_mem_nil, or_false] at ht
    rcases ht with rfl | rfl | rfl | rfl
    exacts [tokType_fieldOK hT, tokSrc_fieldOK hS, tokDst_fieldOK hD, tokOpts_fieldOK h1 h2]
  have hlne : l ≠ [] := by
    intro hl
    have := hp.length_eq
    rw [hl] at this
    simp at this
  have hcsv : csvFields (joinComma l) = .ok l :=
    csvFields_joinComma l hlne (fun t ht => hfour t (hmem t ht))
  have hgood : ∀ t ∈ l, ∀ m : Mount, ∃ m2, applyField m t = .ok m2 := by
    intro t ht m
    have ht' := hmem t ht
    simp only [List.mem_cons, List.not_mem_nil, or_false] at ht'
    rcases ht' with rfl | rfl | rfl | rfl
    · exact ⟨_, applyField_tokType m T hT.1⟩
    · exact ⟨_, applyField_tokSrc m S hS.1⟩
    · exact ⟨_, applyField_tokDst m D hD.1⟩
    · exact ⟨_, applyField_tokOpts m o1 o2 h1.1 h2.1 hc1 hc2⟩
  have hcomm : ∀ x ∈ l, ∀ y ∈ l, ∀ z : Mount,
      applyOk (applyOk z x) y = applyOk (applyOk z y) x := by
    intro x hx y hy z
    have hx' := hmem x hx
    have hy' := hmem y hy
    simp only [List.mem_cons, List.not_mem_nil, or_false] at hx' hy'
    rcases hx' with rfl | rfl | rfl | rfl <;> rcases hy' with rfl | rfl | rfl | rfl <;>
      simp [eT, eS, eD, eO]
  have hfold : l.foldl applyOk emptyMount =
      [tokType T, tokSrc S, tokDst D, tokOpts o1 o2].foldl applyOk emptyMount :=
    hp.foldl_eq' hcomm emptyMount
  have hdata : (String.mk (joinComma l)).data = joinComma l := rfl
  have hstart : parseMountFlag (String.mk (joinComma l)) = mountFromFields emptyMount l := by
    simp [parseMountFlag, hdata, hcsv]
  rw [hstart, mountFromFields_eq_foldl l hgood emptyMount, hfold]
  simp [List.foldl, eT, eS, eD, eO, emptyMount]

theorem parseMountFlag_valid_reorder_witness :
    parseMountFlag (String.mk (joinComma
      [tokDst "/b".data, tokOpts "rbind".data "rw".data,
       tokType "bind".data, tokSrc "/a".data])) =
      .ok { type := String.mk "bind".data, source := String.mk "/a".data,
            destination := String.mk "/b".data,
            options := [String.mk "rbind".data, String.mk "rw".data] } :=
  parseMountFlag_valid_reorder "bind".data "/a".data "/b".data "rbind".data "rw".data
    (by decide) (by decide) (by decide) (by decide) (by decide) (by decide) (by decide)
    [tokDst "/b".data, tokOpts "rbind".data "rw".data, tokType "bind".data, tokSrc "/a".data]
    (by decide)

/-- C4 counterexample: a mount string in which the recognized key
`type` appears twice parses successfully (the claim says it must not),
with the last occurrence winning. -/
theorem parseMountFlag_duplicate_key_parses :
    parseMountFlag "type=a,type=b" =
      .ok { type := "b", source := "", destination := "", options := [] } := by
  decide

/-- C4 amended: recognized keys may repeat; the field loop applies the
fields left to right, so the last occurrence of a key wins. -/
theorem parseMountFlag_duplicate_key_last_wins (T1 T2 : List Char)
    (h1 : TokenOK T1) (h2 : TokenOK T2) :
    parseMountFlag (String.mk (joinComma [tokType T1, tokType T2])) =
      .ok { type := String.mk T2, source := "", destination := "", options := [] } := by
  have hcsv : csvFields (joinComma [tokType T1, tokType T2]) = .ok [tokType T1, tokType T2] := by
    refine csvFields_joinComma _ (by simp) ?_
    intro t ht
    simp only [List.mem_cons, List.not_mem_nil, or_false] at ht
    rcases ht with rfl | rfl
    exacts [tokType_fieldOK h1, tokType_fieldOK h2]
  have e1 : ∀ z : Mount, applyOk z (tokType T1) = { z with type := String.mk T1 } :=
    fun z => applyOk_tokType z h1.1
  have e2 : ∀ z : Mount, applyOk z (tokType T2) = { z with type := String.mk T2 } :=
    fun z => applyOk_tokType z h2.1
  have hgood : ∀ t ∈ [tokType T1, tokType T2], ∀ m : Mount, ∃ m2, applyField m t = .ok m2 := by
    intro t ht m
    simp only [List.mem_cons, List.not_mem_nil, or_false] at ht
    rcases ht with rfl | rfl
    · exact ⟨_, applyField_tokType m T1 h1.1⟩
    · exact ⟨_, applyField_tokType m T2 h2.1⟩
  have hdata : (String.mk (joinComma [tokType T1, tokType T2])).data =
      joinComma [tokType T1, tokType T2] := rfl
  have hstart : parseMountFlag (String.mk (joinComma [tokType T1, tokType T2])) =
      mountFromFields emptyMount [tokType T1, tokType T2] := by
    simp [parseMountFlag, hdata, hcsv]
  rw [hstart, mountFromFields_eq_foldl _ hgood emptyMount]
  simp [List.foldl, e1, e2, emptyMount]

theorem parseMountFlag_duplicate_key_last_wins_witness :
    parseMountFlag (String.mk (joinComma [tokType "a".data, tokType "b".data])) =
      .ok { type := String.mk "b".data, source := "", destination := "", options := [] } :=
  parseMountFlag_duplicate_key_last_wins "a".data "b".data (by decide) (by decide)

/-- C6 counterexample: the token `options=a=b`, whose value contains a
further `=`, does not parse successfully (the claim says it parses with
key `options` and value `a=b`); `strings.Split` on every `=` gives
three parts, which the length check rejects. -/
theorem parseMountFlag_value_with_eq_errors :
    parseMountFlag "options=a=b" = .error .malformed := by decide

/-- C6 amended: each token is split on every `=` and any token that
does not split into exactly two parts is rejected with the malformed
error, so a token whose value itself contains `=` fails to parse. -/
theorem parseMountFlag_multi_eq_malformed (k v1 v2 : List Char)
    (hk : TokenOK k) (h1 : TokenOK v1) (h2 : TokenOK v2) :
    parseMountFlag (String.mk (k ++ '=' :: (v1 ++ '=' :: v2))) = .error .malformed := by
  have hplain : ∀ c ∈ k ++ '=' :: (v1 ++ '=' :: v2), c ≠ '\"' ∧ c ≠ '\n' ∧ c ≠ '\r' := by
    intro c hc
    rcases List.mem_append.1 hc with hm | hm
    · exact tokenOK_plain hk c hm
    · rcases List.mem_cons.1 hm with rfl | hm2
      · decide
      · rcases List.mem_append.1 hm2 with hm3 | hm3
        · exact tokenOK_plain h1 c hm3
        · rcases List.mem_cons.1 hm3 with rfl | hm4
          · decide
          · exact tokenOK_plain h2 c hm4
  have hnc : ',' ∉ k ++ '=' :: (v1 ++ '=' :: v2) := by
    intro hc
    rcases List.mem_append.1 hc with hm | hm
    · exact hk.2.1 hm
    · rcases List.mem_cons.1 hm with hm2 | hm2
      · exact absurd hm2 (by decide)
      · rcases List.mem_append.1 hm2 with hm3 | hm3
        · exact h1.2.1 hm3
        · rcases List.mem_cons.1 hm3 with hm4 | hm4
          · exact absurd hm4 (by decide)
          · exact h2.2.1 hm4
  have hne : k ++ '=' :: (v1 ++ '=' :: v2) ≠ [] := by simp
  have hcsv : csvFields (k ++ '=' :: (v1 ++ '=' :: v2)) =
      .ok [k ++ '=' :: (v1 ++ '=' :: v2)] := by
    rw [csvFields_plain _ hne hplain, splitOnChar_not_mem ',' _ hnc]
  have hsplit : splitOnChar '=' (k ++ '=' :: (v1 ++ '=' :: v2)) = [k, v1, v2] := by
    rw [splitOnChar_append '=' k _ hk.1, splitOnChar_append '=' v1 v2 h1.1,
      splitOnChar_not_mem '=' v2 h2.1]
  have hdata : (String.mk (k ++ '=' :: (v1 ++ '=' :: v2))).data =
      k ++ '=' :: (v1 ++ '=' :: v2) := rfl
  have hstart : parseMountFlag (String.mk (k ++ '=' :: (v1 ++ '=' :: v2))) =
      mountFromFields emptyMount [k ++ '=' :: (v1 ++ '=' :: v2)] := by
    simp [parseMountFlag, hdata, hcsv]
  rw [hstart]
  simp [mountFromFields, applyField, hsplit]

theorem parseMountFlag_multi_eq_malformed_witness :
    parseMountFlag (String.mk ("options".data ++ '=' :: ("a".data ++ '=' :: "b".data))) =
      .error .malformed :=
  parseMountFlag_multi_eq_malformed "options".data "a".data "b".data
    (by decide) (by decide) (by decide)

/-- C9 counterexample: the mount string `foo=bar,typeT` contains the
`=`-free token `typeT`, yet parsing fails with the unsupported-option
error for the earlier token `foo=bar`, not with the malformed error the
claim requires. -/
theorem parseMountFlag_eq_free_token_other_error :
    ('=' ∉ "typeT".data) ∧
    csvFields ("foo=bar,typeT".data) = .ok ["foo=bar".data, "typeT".data] ∧
    parseMountFlag "foo=bar,typeT" = .error (.unsupported "foo") ∧
    parseMountFlag "foo=bar,typeT" ≠ .error .malformed := by
  decide

/-- C9 amended: a mount string one of whose record tokens contains no
`=` never parses successfully; the failure is the malformed error when
every earlier token applies cleanly (an earlier failing token may
surface its own error instead). -/
theorem parseMountFlag_eq_free_token_fails (m : String) (pre post : List (List Char))
    (f : List Char) (hcsv : csvFields m.data = .ok (pre ++ f :: post)) (hf : '=' ∉ f) :
    (∀ mt : Mount, parseMountFlag m ≠ .ok mt) ∧
    (∀ m2 : Mount, mountFromFields emptyMount pre = .ok m2 →
      parseMountFlag m = .error .malformed) := by
  have hbad : ∀ mm : Mount, applyField mm f = .error .malformed := by
    intro mm
    simp [applyField, splitOnChar_not_mem '=' f hf]
  cases hpre : mountFromFields emptyMount pre with
  | error e =>
    have hrun : parseMountFlag m = .error e := by
      simp [parseMountFlag, hcsv, mountFromFields_append, hpre]
    constructor
    · intro mt hmt
      rw [hrun] at hmt
      exact Except.noConfusion hmt
    · intro m2 hm2
      exact Except.noConfusion hm2
  | ok m2 =>
    have hrun : parseMountFlag m = .error .malformed := by
      simp [parseMountFlag, hcsv, mountFromFields_append, hpre, mountFromFields, hbad m2]
    exact ⟨fun mt hmt => by rw [hrun] at hmt; exact Except.noConfusion hmt,
      fun _ _ => hrun⟩

theorem parseMountFlag_eq_free_token_fails_witness :
    parseMountFlag "typeT" ≠ .ok emptyMount ∧
    parseMountFlag "typeT" = .error .malformed :=
  ⟨(parseMountFlag_eq_free_token_fails "typeT" [] [] "typeT".data
      (by decide) (by decide)).1 emptyMount,
   (parseMountFlag_eq_free_token_fails "typeT" [] [] "typeT".data
      (by decide) (by decide)).2 emptyMount (by decide)⟩

theorem occursBefore_of_mem (a b : Event) (l r : List Event)
    (ha : a ∈ l) (hb : b ∈ r) : occursBefore a b (l ++ r) = true := by
  induction l with
  | nil => exact absurd ha (List.not_mem_nil a)
  | cons x rest ih =>
    simp only [List.cons_append, occursBefore, Bool.or_eq_true, Bool.and_eq_true,
      decide_eq_true_eq]
    rcases List.mem_cons.1 ha with rfl | hmem
    · exact Or.inl ⟨rfl, by simp [hb]⟩
    · exact Or.inr (ih hmem)

theorem occursBefore_append_left (a b : Event) (l r : List Event)
    (h : occursBefore a b l = true) : occursBefore a b (l ++ r) = true := by
  induction l with
  | nil => exact absurd h (by simp [occursBefore])
  | cons x rest ih =>
    simp only [occursBefore, Bool.or_eq_true, Bool.and_eq_true, decide_eq_true_eq] at h
    simp only [List.cons_append, occursBefore, Bool.or_eq_true, Bool.and_eq_true,
      decide_eq_true_eq]
    rcases h with ⟨hx, hb⟩ | h2
    · exact Or.inl ⟨hx, List.mem_append_left r hb⟩
    · exact Or.inr (ih h2)

theorem stage3_ob (f : Flags) (env : Env) (tr ds : List Event)
    (h : occursBefore .taskWait .taskStart tr = true) :
    occursBefore .taskWait .taskStart (stage3 f env tr ds).1 = true := by
  unfold stage3
  cases htty : f.tty <;> cases hst : env.statusResult <;>
    cases hdel : env.deleteTaskErr <;>
    simp [List.append_assoc] <;>
    exact occursBefore_append_left _ _ tr _ h

theorem stage2c_ob (f : Flags) (env : Env) (tr ds : List Event)
    (hw : Event.taskWait ∈ tr) :
    occursBefore .taskWait .taskStart (stage2c f env tr ds).1 = true := by
  unfold stage2c
  cases hst : env.startErr with
  | some e =>
    simp only [List.append_assoc]
    exact occursBefore_of_mem Event.taskWait Event.taskStart tr ([Event.taskStart] ++ ds)
      hw (by simp)
  | none =>
    cases hdet : f.detach with
    | true =>
      simp only [if_true, List.append_assoc]
      exact occursBefore_of_mem Event.taskWait Event.taskStart tr ([Event.taskStart] ++ ds)
        hw (by simp)
    | false =>
      simp only [Bool.false_eq_true, if_false]
      exact stage3_ob f env (tr ++ [Event.taskStart]) ds
        (occursBefore_of_mem Event.taskWait Event.taskStart tr [Event.taskStart] hw (by simp))

theorem stage2b_ob (f : Flags) (env : Env) (tr ds : List Event)
    (hw : Event.taskWait ∈ tr) (hs1 : Event.taskStart ∉ tr) (hs2 : Event.taskStart ∉ ds) :
    Event.taskStart ∈ (stage2b f env tr ds).1 →
    occursBefore .taskWait .taskStart (stage2b f env tr ds).1 = true := by
  unfold stage2b
  cases hpid : f.pidFileSet with
  | false =>
    simp only [Bool.false_eq_true, if_false]
    exact fun _ => stage2c_ob f env tr ds hw
  | true =>
    simp only [if_true]
    cases hwp : env.writePidErr with
    | some e =>
      intro hmem
      exfalso
      rcases List.mem_append.1 hmem with hm | hm
      · rcases List.mem_append.1 hm with hm2 | hm2
        · exact hs1 hm2
        · exact absurd hm2 (by decide)
      · exact hs2 hm
    | none =>
      exact fun _ => stage2c_ob f env (tr ++ [Event.writePid]) ds
        (List.mem_append_left _ hw)

theorem stage2_ob (f : Flags) (env : Env) (tr ds : List Event)
    (hd : f.detach = false)
    (hs1 : Event.taskStart ∉ tr) (hs2 : Event.taskStart ∉ ds) :
    Event.taskStart ∈ (stage2 f env tr ds).1 →
    occursBefore .taskWait .taskStart (stage2 f env tr ds).1 = true := by
  unfold stage2
  cases hnt : env.newTaskErr with
  | some e =>
    intro hmem
    exfalso
    rcases List.mem_append.1 hmem with hm | hm
    · rcases List.mem_append.1 hm with hm2 | hm2
      · exact hs1 hm2
      · exact absurd hm2 (by decide)
    · exact hs2 hm
  | none =>
    simp only [hd, Bool.false_eq_true, if_false]
    cases hwt : env.waitErr with
    | some e =>
      intro hmem
      exfalso
      rcases List.mem_append.1 hmem with hm | hm
      · rcases List.mem_append.1 hm with hm2 | hm2
        · rcases List.mem_append.1 hm2 with hm3 | hm3
          · exact hs1 hm3
          · exact absurd hm3 (by decide)
        · exact absurd hm2 (by decide)
      · rcases List.mem_cons.1 hm with hm2 | hm2
        · exact absurd hm2 (by decide)
        · exact hs2 hm2
    | none =>
      refine stage2b_ob f env ((tr ++ [Event.createTask]) ++ [Event.taskWait])
        (Event.taskDelete :: ds) (by simp) ?_ ?_
      · intro hmem
        rcases List.mem_append.1 hmem with hm | hm
        · rcases List.mem_append.1 hm with hm2 | hm2
          · exact hs1 hm2
          · exact absurd hm2 (by decide)
        · exact absurd hm (by decide)
      · intro hmem
        rcases List.mem_cons.1 hmem with hm | hm
        · exact absurd hm (by decide)
        · exact hs2 hm

/-! Claim theorems about the run lifecycle orchestrator. -/

/-- C1 counterexample: in an attached run where every call succeeds and
the task reports exit code 0, the outcome is success but task deletion
is invoked twice (the explicit post-wait deletion and the deferred
one), not exactly once as the claim states. -/
theorem attachedExitZero_not_single_delete :
    ¬ ((commandAction
          { config := false, args := ["img", "c1"], tty := false, detach := false,
            rm := false, pidFileSet := false }
          { newClientErr := none, newContainerErr := none, setRawErr := none,
            newTaskErr := none, waitErr := none, writePidErr := none, startErr := none,
            statusResult := .ok 0, deleteTaskErr := none, resizeErr := none }).2 = none ∧
       (commandAction
          { config := false, args := ["img", "c1"], tty := false, detach := false,
            rm := false, pidFileSet := false }
          { newClientErr := none, newContainerErr := none, setRawErr := none,
            newTaskErr := none, waitErr := none, writePidErr := none, startErr := none,
            statusResult := .ok 0, deleteTaskErr := none, resizeErr := none }).1.count
          .taskDelete = 1) := by
  decide

/-- C1 amended: in every attached run in which the remote task reports
exit code 0 and the explicit task deletion succeeds, the outcome is
success and task deletion is invoked exactly twice: once explicitly
after the exit status is decoded and once by the deferred cleanup. -/
theorem attachedExitZero_success_two_deletes (f : Flags) (env : Env)
    (hv : validate f = none) (hd : f.detach = false)
    (h1 : env.newClientErr = none) (h2 : env.newContainerErr = none)
    (h3 : env.setRawErr = none) (h4 : env.newTaskErr = none)
    (h5 : env.waitErr = none) (h6 : env.writePidErr = none)
    (h7 : env.startErr = none) (h8 : env.statusResult = .ok 0)
    (h9 : env.deleteTaskErr = none) :
    (commandAction f env).2 = none ∧
    (commandAction f env).1.count .taskDelete = 2 := by
  cases hrm : f.rm <;> cases htty : f.tty <;> cases hpid : f.pidFileSet <;>
    simp [commandAction, stage2, stage2b, stage2c, stage3, hv, hd, h1, h2, h3, h4, h5,
      h6, h7, h8, h9, hrm, htty, hpid, List.count_cons, List.count_nil]

theorem attachedExitZero_success_two_deletes_witness :
    (commandAction
        { config := false, args := ["img", "c1"], tty := true, detach := false,
          rm := true, pidFileSet := false }
        { newClientErr := none, newContainerErr := none, setRawErr := none,
          newTaskErr := none, waitErr := none, writePidErr := none, startErr := none,
          statusResult := .ok 0, deleteTaskErr := none, resizeErr := none }).2 = none ∧
    (commandAction
        { config := false, args := ["img", "c1"], tty := true, detach := false,
          rm := true, pidFileSet := false }
        { newClientErr := none, newContainerErr := none, setRawErr := none,
          newTaskErr := none, waitErr := none, writePidErr := none, startErr := none,
          statusResult := .ok 0, deleteTaskErr := none, resizeErr := none }).1.count
      .taskDelete = 2 :=
  attachedExitZero_success_two_deletes _ _ rfl rfl rfl rfl rfl rfl rfl rfl rfl rfl rfl

/-- C2 counterexample: when raw-mode acquisition fails, instance
creation has already been invoked (it precedes the console block in
`Action`), contradicting the claim that no instance-creation call
occurs in such a run. -/
theorem setRawFail_instance_already_created :
    ¬ (Event.createInstance ∉
        (commandAction
          { config := false, args := ["img", "c1"], tty := true, detach := false,
            rm := false, pidFileSet := false }
          { newClientErr := none, newContainerErr := none, setRawErr := some "raw",
            newTaskErr := none, waitErr := none, writePidErr := none, startErr := none,
            statusResult := .ok 0, deleteTaskErr := none, resizeErr := none }).1 ∧
       Event.createTask ∉
        (commandAction
          { config := false, args := ["img", "c1"], tty := true, detach := false,
            rm := false, pidFileSet := false }
          { newClientErr := none, newContainerErr := none, setRawErr := some "raw",
            newTaskErr := none, waitErr := none, writePidErr := none, startErr := none,
            statusResult := .ok 0, deleteTaskErr := none, resizeErr := none }).1) := by
  decide

/-- C2 amended: if raw-mode acquisition fails, the run fails with that
error and no task creation, wait, start or task deletion is ever
invoked; instance creation, however, has already occurred before the
console step, so the deferred instance deletion (when registered)
cleans up a created instance. -/
theorem setRawFail_no_task_calls (f : Flags) (env : Env) (e : String)
    (hv : validate f = none) (htty : f.tty = true)
    (h1 : env.newClientErr = none) (h2 : env.newContainerErr = none)
    (h3 : env.setRawErr = some e) :
    (commandAction f env).2 = some (.msg e) ∧
    Event.createTask ∉ (commandAction f env).1 ∧
    Event.taskWait ∉ (commandAction f env).1 ∧
    Event.taskStart ∉ (commandAction f env).1 ∧
    Event.taskDelete ∉ (commandAction f env).1 ∧
    Event.createInstance ∈ (commandAction f env).1 := by
  cases hrm : f.rm <;> cases hdet : f.detach <;>
    simp [commandAction, hv, htty, h1, h2, h3, hrm, hdet]

theorem setRawFail_no_task_calls_witness :
    (commandAction
        { config := false, args := ["img", "c1"], tty := true, detach := false,
          rm := true, pidFileSet := false }
        { newClientErr := none, newContainerErr := none, setRawErr := some "raw mode failed",
          newTaskErr := none, waitErr := none, writePidErr := none, startErr := none,
          statusResult := .ok 0, deleteTaskErr := none, resizeErr := none }).2 =
      some (.msg "raw mode failed") ∧
    Event.createTask ∉ (commandAction
        { config := false, args := ["img", "c1"], tty := true, detach := false,
          rm := true, pidFileSet := false }
        { newClientErr := none, newContainerErr := none, setRawErr := some "raw mode failed",
          newTaskErr := none, waitErr := none, writePidErr := none, startErr := none,
          statusResult := .ok 0, deleteTaskErr := none, resizeErr := none }).1 ∧
    Event.taskWait ∉ (commandAction
        { config := false, args := ["img", "c1"], tty := true, detach := false,
          rm := true, pidFileSet := false }
        { newClientErr := none, newContainerErr := none, setRawErr := some "raw mode failed",
          newTaskErr := none, waitErr := none, writePidErr := none, startErr := none,
          statusResult := .ok 0, deleteTaskErr := none, resizeErr := none }).1 ∧
    Event.taskStart ∉ (commandAction
        { config := false, args := ["img", "c1"], tty := true, detach := false,
          rm := true, pidFileSet := false }
        { newClientErr := none, newContainerErr := none, setRawErr := some "raw mode failed",
          newTaskErr := none, waitErr := none, writePidErr := none, startErr := none,
          statusResult := .ok 0, deleteTaskErr := none, resizeErr := none }).1 ∧
    Event.taskDelete ∉ (commandAction
        { config := false, args := ["img", "c1"], tty := true, detach := false,
          rm := true, pidFileSet := false }
        { newClientErr := none, newContainerErr := none, setRawErr := some "raw mode failed",
          newTaskErr := none, waitErr := none, writePidErr := none, startErr := none,
          statusResult := .ok 0, deleteTaskErr := none, resizeErr := none }).1 ∧
    Event.createInstance ∈ (commandAction
        { config := false, args := ["img", "c1"], tty := true, detach := false,
          rm := true, pidFileSet := false }
        { newClientErr := none, newContainerErr := none, setRawErr := some "raw mode failed",
          newTaskErr := none, waitErr := none, writePidErr := none, startErr := none,
          statusResult := .ok 0, deleteTaskErr := none, resizeErr := none }).1 :=
  setRawFail_no_task_calls _ _ "raw mode failed" rfl rfl rfl rfl rfl

/-- C3: a detached run that reaches a successful start returns success,
and never invokes the wait, the resize or signal forwarding, or task
deletion (nor the deferred instance deletion, which is only registered
for attached runs). -/
theorem detachedRun_no_wait_no_forward_no_delete (f : Flags) (env : Env)
    (hv : validate f = none) (hd : f.detach = true)
    (h1 : env.newClientErr = none) (h2 : env.newContainerErr = none)
    (h3 : env.setRawErr = none) (h4 : env.newTaskErr = none)
    (h6 : env.writePidErr = none) (h7 : env.startErr = none) :
    (commandAction f env).2 = none ∧
    Event.taskStart ∈ (commandAction f env).1 ∧
    Event.taskWait ∉ (commandAction f env).1 ∧
    Event.taskDelete ∉ (commandAction f env).1 ∧
    Event.resizeHandle ∉ (commandAction f env).1 ∧
    Event.forwardSignals ∉ (commandAction f env).1 ∧
    Event.deleteInstance ∉ (commandAction f env).1 := by
  cases hrm : f.rm <;> cases htty : f.tty <;> cases hpid : f.pidFileSet <;>
    simp [commandAction, stage2, stage2b, stage2c, stage3, hv, hd, h1, h2, h3, h4,
      h6, h7, hrm, htty, hpid]

theorem detachedRun_no_wait_no_forward_no_delete_witness :
    (commandAction
        { config := false, args := ["img", "c1"], tty := false, detach := true,
          rm := true, pidFileSet := false }
        { newClientErr := none, newContainerErr := none, setRawErr := none,
          newTaskErr := none, waitErr := none, writePidErr := none, startErr := none,
          statusResult := .ok 0, deleteTaskErr := none, resizeErr := none }).2 = none ∧
    Event.taskStart ∈ (commandAction
        { config := false, args := ["img", "c1"], tty := false, detach := true,
          rm := true, pidFileSet := false }
        { newClientErr := none, newContainerErr := none, setRawErr := none,
          newTaskErr := none, waitErr := none, writePidErr := none, startErr := none,
          statusResult := .ok 0, deleteTaskErr := none, resizeErr := none }).1 ∧
    Event.taskWait ∉ (commandAction
        { config := false, args := ["img", "c1"], tty := false, detach := true,
          rm := true, pidFileSet := false }
        { newClientErr := none, newContainerErr := none, setRawErr := none,
          newTaskErr := none, waitErr := none, writePidErr := none, startErr := none,
          statusResult := .ok 0, deleteTaskErr := none, resizeErr := none }).1 ∧
    Event.taskDelete ∉ (commandAction
        { config := false, args := ["img", "c1"], tty := false, detach := true,
          rm := true, pidFileSet := false }
        { newClientErr := none, newContainerErr := none, setRawErr := none,
          newTaskErr := none, waitErr := none, writePidErr := none, startErr := none,
          statusResult := .ok 0, deleteTaskErr := none, resizeErr := none }).1 ∧
    Event.resizeHandle ∉ (commandAction
        { config := false, args := ["img", "c1"], tty := false, detach := true,
          rm := true, pidFileSet := false }
        { newClientErr := none, newContainerErr := none, setRawErr := none,
          newTaskErr := none, waitErr := none, writePidErr := none, startErr := none,
          statusResult := .ok 0, deleteTaskErr := none, resizeErr := none }).1 ∧
    Event.forwardSignals ∉ (commandAction
        { config := false, args := ["img", "c1"], tty := false, detach := true,
          rm := true, pidFileSet := false }
        { newClientErr := none, newContainerErr := none, setRawErr := none,
          newTaskErr := none, waitErr := none, writePidErr := none, startErr := none,
          statusResult := .ok 0, deleteTaskErr := none, resizeErr := none }).1 ∧
    Event.deleteInstance ∉ (commandAction
        { config := false, args := ["img", "c1"], tty := false, detach := true,
          rm := true, pidFileSet := false }
        { newClientErr := none, newContainerErr := none, setRawErr := none,
          newTaskErr := none, waitErr := none, writePidErr := none, startErr := none,
          statusResult := .ok 0, deleteTaskErr := none, resizeErr := none }).1 :=
  detachedRun_no_wait_no_forward_no_delete _ _ rfl rfl rfl rfl rfl rfl rfl rfl

/-- C7 counterexample: an attached run in which the task reports exit
code 5 but the explicit task deletion fails returns the deletion error,
not an exit-code-5 error as the claim requires. -/
theorem nonzeroExit_masked_by_delete_failure :
    (commandAction
        { config := false, args := ["img", "c1"], tty := false, detach := false,
          rm := false, pidFileSet := false }
        { newClientErr := none, newContainerErr := none, setRawErr := none,
          newTaskErr := none, waitErr := none, writePidErr := none, startErr := none,
          statusResult := .ok 5, deleteTaskErr := some "delete failed",
          resizeErr := none }).2 = some (.msg "delete failed") ∧
    (commandAction
        { config := false, args := ["img", "c1"], tty := false, detach := false,
          rm := false, pidFileSet := false }
        { newClientErr := none, newContainerErr := none, setRawErr := none,
          newTaskErr := none, waitErr := none, writePidErr := none, startErr := none,
          statusResult := .ok 5, deleteTaskErr := some "delete failed",
          resizeErr := none }).2 ≠ some (.exit "" 5) := by
  decide

/-- C7 amended: in every attached run in which the remote task reports
a non-zero exit code and the final task deletion succeeds, the outcome
is an exit-code error carrying that code and an empty message. -/
theorem nonzeroExit_error_carries_code (f : Flags) (env : Env) (n : Nat)
    (hv : validate f = none) (hd : f.detach = false)
    (h1 : env.newClientErr = none) (h2 : env.newContainerErr = none)
    (h3 : env.setRawErr = none) (h4 : env.newTaskErr = none)
    (h5 : env.waitErr = none) (h6 : env.writePidErr = none)
    (h7 : env.startErr = none) (h8 : env.statusResult = .ok n) (hn : n ≠ 0)
    (h9 : env.deleteTaskErr = none) :
    (commandAction f env).2 = some (.exit "" n) := by
  cases hrm : f.rm <;> cases htty : f.tty <;> cases hpid : f.pidFileSet <;>
    simp [commandAction, stage2, stage2b, stage2c, stage3, hv, hd, h1, h2, h3, h4, h5,
      h6, h7, h8, h9, hn, hrm, htty, hpid]

theorem nonzeroExit_error_carries_code_witness :
    (commandAction
        { config := false, args := ["img", "c1"], tty := false, detach := false,
          rm := false, pidFileSet := false }
        { newClientErr := none, newContainerErr := none, setRawErr := none,
          newTaskErr := none, waitErr := none, writePidErr := none, startErr := none,
          statusResult := .ok 5, deleteTaskErr := none, resizeErr := none }).2 =
      some (.exit "" 5) :=
  nonzeroExit_error_carries_code _ _ 5 rfl rfl rfl rfl rfl rfl rfl rfl rfl rfl
    (by decide) rfl

/-- C8: in every attached run in which the exit status decodes
successfully (to any code) but the final explicit task deletion fails,
the run's outcome is the deletion error, overriding the decoded exit
code. -/
theorem deleteFailure_overrides_exit_code (f : Flags) (env : Env) (n : Nat) (e : String)
    (hv : validate f = none) (hd : f.detach = false)
    (h1 : env.newClientErr = none) (h2 : env.newContainerErr = none)
    (h3 : env.setRawErr = none) (h4 : env.newTaskErr = none)
    (h5 : env.waitErr = none) (h6 : env.writePidErr = none)
    (h7 : env.startErr = none) (h8 : env.statusResult = .ok n)
    (h9 : env.deleteTaskErr = some e) :
    (commandAction f env).2 = some (.msg e) := by
  cases hrm : f.rm <;> cases htty : f.tty <;> cases hpid : f.pidFileSet <;>
    simp [commandAction, stage2, stage2b, stage2c, stage3, hv, hd, h1, h2, h3, h4, h5,
      h6, h7, h8, h9, hrm, htty, hpid]

/-- C10: in every attached run, whenever the start call is issued, the
wait subscription was established strictly before it in the call
trace. -/
theorem attachedRun_wait_before_start (f : Flags) (env : Env) (hd : f.detach = false) :
    Event.taskStart ∈ (commandAction f env).1 →
    occursBefore .taskWait .taskStart (commandAction f env).1 = true := by
  unfold commandAction
  cases hv : validate f with
  | some e => intro hs; simp at hs
  | none =>
    cases h1 : env.newClientErr with
    | some e => intro hs; simp at hs
    | none =>
      cases h2 : env.newContainerErr with
      | some e => intro hs; simp at hs
      | none =>
        simp only [hd]
        cases hrm : f.rm <;> cases htty : f.tty <;>
          cases h3 : env.setRawErr <;>
          first
            | (intro hs; simp at hs; done)
            | exact stage2_ob f env _ _ hd (by decide) (by decide)

theorem attachedRun_wait_before_start_witness :
    occursBefore .taskWait .taskStart
      (commandAction
        { config := false, args := ["img", "c1"], tty := false, detach := false,
          rm := false, pidFileSet := false }
        { newClientErr := none, newContainerErr := none, setRawErr := none,
          newTaskErr := none, waitErr := none, writePidErr := none, startErr := none,
          statusResult := .ok 0, deleteTaskErr := none, resizeErr := none }).1 = true :=
  attachedRun_wait_before_start _ _ rfl (by decide)

theorem deleteFailure_overrides_exit_code_witness :
    (commandAction
        { config := false, args := ["img", "c1"], tty := false, detach := false,
          rm := false, pidFileSet := false }
        { newClientErr := none, newContainerErr := none, setRawErr := none,
          newTaskErr := none, waitErr := none, writePidErr := none, startErr := none,
          statusResult := .ok 5, deleteTaskErr := some "delete failed",
          resizeErr := none }).2 = some (.msg "delete failed") :=
  deleteFailure_overrides_exit_code _ _ 5 "delete failed" rfl rfl rfl rfl rfl rfl rfl
    rfl rfl rfl rfl

end CtrRun
